import Mathlib

/-!
Shallow embedding of the goftp FTP client (ftp.go) and proofs about it.
Strings are modelled as `List Char`; Go `int` values that can be negative
(string indexes reported as -1, parsed integers) are modelled as `Int`.
All wall-clock times are interpreted in a single fixed location, so the
`*time.Location` parameter of the Go functions is omitted: it only names
the frame in which the civil fields are read, and every comparison in the
code happens between times of the same location.
-/

deriving instance DecidableEq for Except

namespace Goftp

/-- Convert a Lean string literal to the `List Char` representation used by
the model. -/
def strL (s : String) : List Char := s.data

/-- Decimal digit value of a character (meaningful for '0'..'9'). -/
def dval (c : Char) : Nat := c.toNat - 48

/-- Value of a decimal digit string, most significant digit first. -/
def decVal (l : List Char) : Nat := l.foldl (fun a c => a * 10 + dval c) 0

/-- Go `strings.Split(s, sep)` for a one-character separator: splits at every
occurrence, keeping empty fields, and yields one field even for the empty
string. -/
def splitChar (sep : Char) : List Char → List (List Char)
  | [] => [[]]
  | c :: cs =>
    match splitChar sep cs with
    | [] => [[]]
    | g :: gs => if c = sep then [] :: g :: gs else (c :: g) :: gs

/-- Go `strings.Index`/`strings.IndexByte` for a single character: the index
of the first occurrence, or -1. -/
def goIndexChar (l : List Char) (c : Char) : Int :=
  match l.findIdx? (fun x => x = c) with
  | some i => (i : Int)
  | none => -1

/-- First index at which `sub` occurs inside `l`, if any (Go `strings.Index`
for a multi-character needle; the empty needle matches at 0). -/
def findSub : List Char → List Char → Option Nat
  | l, sub =>
    if sub.isPrefixOf l then some 0
    else
      match l with
      | [] => none
      | _ :: t => (findSub t sub).map (· + 1)

/-- Go `strings.Index(s, sub)`: first occurrence or -1. -/
def goIndexSub (l sub : List Char) : Int :=
  match findSub l sub with
  | some i => (i : Int)
  | none => -1

/-- Go `strings.Contains`. -/
def goContains (l sub : List Char) : Bool := (findSub l sub).isSome

/-- Go `strings.HasPrefix`. -/
def goHasPrefix (l pre : List Char) : Bool := pre.isPrefixOf l

/-- Go `strings.TrimLeft(s, " ")`. -/
def goTrimLeftSpace : List Char → List Char
  | [] => []
  | c :: cs => if c = ' ' then goTrimLeftSpace cs else c :: cs

/-- ASCII lower-casing of one character (Go `strings.ToLower` on the ASCII
key names appearing in RFC-3659 fact lists). -/
def lowerChar (c : Char) : Char :=
  if 'A' ≤ c ∧ c ≤ 'Z' then Char.ofNat (c.toNat + 32) else c

/-- ASCII `strings.ToLower`. -/
def goToLower (l : List Char) : List Char := l.map lowerChar

/-- Magnitude part of `strconv.ParseInt(s, 10, 64)` for a non-negative
literal: the digit value, clamped to the 64-bit maximum on range error,
0 on a syntax error. -/
def atoiMagPos (l : List Char) : Int :=
  if ¬ l.isEmpty = true ∧ l.all Char.isDigit = true then
    (if (decVal l : Int) ≤ 2 ^ 63 - 1 then (decVal l : Int) else 2 ^ 63 - 1)
  else 0

/-- Magnitude part of `strconv.ParseInt(s, 10, 64)` after a `-` sign:
clamped to the 64-bit minimum on range error, 0 on a syntax error. -/
def atoiMagNeg (l : List Char) : Int :=
  if ¬ l.isEmpty = true ∧ l.all Char.isDigit = true then
    (if (decVal l : Int) ≤ 2 ^ 63 then -(decVal l : Int) else -(2 ^ 63))
  else 0

/-- Go `strconv.Atoi` as used in `Pasv`, where the error is discarded:
the value that `strconv.ParseInt(s, 10, 64)` reports, which is 0 on a
syntax error and the clamped extreme on a range error. -/
def goAtoi (s : List Char) : Int :=
  match s with
  | [] => 0
  | c :: rest =>
    if c = '+' then atoiMagPos rest
    else if c = '-' then atoiMagNeg rest
    else atoiMagPos (c :: rest)

/-- Digit value of a character in an arbitrary base, per Go `strconv.ParseUint`
(`0-9`, `a-z`, `A-Z`). -/
def baseDigit (c : Char) : Option Nat :=
  if '0' ≤ c ∧ c ≤ '9' then some (c.toNat - 48)
  else if 'a' ≤ c ∧ c ≤ 'z' then some (c.toNat - 97 + 10)
  else if 'A' ≤ c ∧ c ≤ 'Z' then some (c.toNat - 65 + 10)
  else none

/-- Underscore-placement check of Go `strconv` (base-0 parsing): underscores
must sit between digits (the base prefix counting as a digit). The `saw`
argument tracks the previous character class: 0 = digit, 1 = underscore,
2 = other/start. -/
def underscoreSane (hex : Bool) (saw : Nat) : List Char → Bool
  | [] => saw ≠ 1
  | c :: cs =>
    if c.isDigit || (hex && (('a' ≤ lowerChar c ∧ lowerChar c ≤ 'f'))) then
      underscoreSane hex 0 cs
    else if c = '_' then
      if saw ≠ 0 then false else underscoreSane hex 1 cs
    else if saw = 1 then false
    else underscoreSane hex 2 cs

/-- Full Go underscore check `underscoreOK` for an unsigned literal. -/
def underscoreAllowed (s : List Char) : Bool :=
  match s with
  | '0' :: b :: rest =>
    if lowerChar b = 'b' ∨ lowerChar b = 'o' ∨ lowerChar b = 'x' then
      underscoreSane (lowerChar b = 'x') 0 rest
    else underscoreSane false 2 s
  | _ => underscoreSane false 2 s

/-- Digit-accumulation loop of `strconv.ParseUint` with 64-bit cutoff.
Returns `(value, sawUnderscore, ok)`; a range overflow clamps the value to
`2^64 - 1` and reports failure, any bad digit reports failure with value 0.
In base-0 mode underscores are provisionally skipped (and re-checked by the
caller); otherwise they are a syntax error. -/
def parseUintLoop (base : Nat) (base0 : Bool) : List Char → Nat → Bool → (Nat × Bool × Bool)
  | [], acc, us => (acc, us, true)
  | c :: cs, acc, us =>
    if c = '_' ∧ base0 then parseUintLoop base base0 cs acc true
    else
      match baseDigit c with
      | none => (0, us, false)
      | some d =>
        if d ≥ base then (0, us, false)
        else
          let n := acc * base + d
          if n ≥ 2 ^ 64 then (2 ^ 64 - 1, us, false)
          else parseUintLoop base base0 cs n us

/-- Go `strconv.ParseUint(s, 0, 64)` as called by `Entry.setSize`: base
sniffing (`0b`/`0o`/`0x`/leading `0` octal), underscore tolerance, 64-bit
range clamping. Returns the value together with a success flag; on failure
the value is the one Go reports alongside the error (0 for syntax errors,
the clamped maximum for range errors). -/
def parseUint0 (s : List Char) : Nat × Bool :=
  match s with
  | [] => (0, false)
  | _ =>
    let (base, digits) :=
      match s with
      | '0' :: b :: c :: rest =>
        if lowerChar b = 'b' then (2, c :: rest)
        else if lowerChar b = 'o' then (8, c :: rest)
        else if lowerChar b = 'x' then (16, c :: rest)
        else (8, b :: c :: rest)
      | '0' :: rest => (8, rest)
      | _ => (10, s)
    let (v, us, ok) := parseUintLoop base true digits 0 false
    if ¬ ok then (v, false)
    else if us ∧ ¬ underscoreAllowed s then (0, false)
    else (v, true)

/-- Go `strconv.ParseUint(s, 10, 64)` as called by `parseDirListLine`. -/
def parseUint10 (s : List Char) : Nat × Bool :=
  match s with
  | [] => (0, false)
  | _ =>
    let (v, _, ok) := parseUintLoop 10 false s 0 false
    (v, ok)

/-! ## Wall-clock time (model of the parts of Go `time` used by ftp.go) -/

/-- A Go `time.Time` value, reduced to its civil wall-clock fields in the
fixed location of the model (proleptic Gregorian calendar, as Go uses). -/
structure GoTime where
  year : Int
  month : Nat
  day : Nat
  hour : Nat
  minute : Nat
  second : Nat
deriving DecidableEq

/-- The zero `time.Time`: January 1 of year 1, 00:00:00. -/
def zeroTime : GoTime := ⟨1, 1, 1, 0, 0, 0⟩

/-- Days from 1970-01-01 to the given civil date (standard civil-from-days
algorithm over the proleptic Gregorian calendar, matching Go's `Date`). -/
def daysFromCivil (y : Int) (m d : Int) : Int :=
  let y2 : Int := if m ≤ 2 then y - 1 else y
  let era : Int := Int.fdiv y2 400
  let yoe : Int := y2 - era * 400
  let mp : Int := if m > 2 then m - 3 else m + 9
  let doy : Int := Int.fdiv (153 * mp + 2) 5 + d - 1
  let doe : Int := yoe * 365 + Int.fdiv yoe 4 - Int.fdiv yoe 100 + doy
  era * 146097 + doe - 719468

/-- Civil date of a day count from 1970-01-01 (inverse of `daysFromCivil`). -/
def civilFromDays (z0 : Int) : Int × Nat × Nat :=
  let z := z0 + 719468
  let era : Int := Int.fdiv z 146097
  let doe : Int := z - era * 146097
  let yoe : Int :=
    Int.fdiv (doe - Int.fdiv doe 1460 + Int.fdiv doe 36524 - Int.fdiv doe 146096) 365
  let y : Int := yoe + era * 400
  let doy : Int := doe - (365 * yoe + Int.fdiv yoe 4 - Int.fdiv yoe 100)
  let mp : Int := Int.fdiv (5 * doy + 2) 153
  let d : Int := doy - Int.fdiv (153 * mp + 2) 5 + 1
  let m : Int := if mp < 10 then mp + 3 else mp - 9
  (if m ≤ 2 then y + 1 else y, m.toNat, d.toNat)

/-- Seconds since 1970-01-01 00:00:00 of a `GoTime`; `Before` and
`AddDate`-based comparisons are decided on this absolute value, exactly as
Go compares instants of times carrying the same location. -/
def absSec (t : GoTime) : Int :=
  daysFromCivil t.year (t.month : Int) (t.day : Int) * 86400
    + (t.hour : Int) * 3600 + (t.minute : Int) * 60 + (t.second : Int)

/-- Go `Time.Before`. -/
def goTimeBefore (a b : GoTime) : Bool := absSec a < absSec b

/-- Go `Time.AddDate(years, months, days)`: add the components and
renormalize through `Date`, months first (overflow into years), then days
through the day count. -/
def goAddDate (t : GoTime) (years months days : Int) : GoTime :=
  let mm : Int := ((t.month : Int) + months) - 1
  let y2 : Int := t.year + years + Int.fdiv mm 12
  let m2 : Int := Int.emod mm 12 + 1
  let dayCount : Int := daysFromCivil y2 m2 1 + ((t.day : Int) + days) - 1
  let c := civilFromDays dayCount
  ⟨c.1, c.2.1, c.2.2, t.hour, t.minute, t.second⟩

/-- Leap year of the proleptic Gregorian calendar (Go `isLeap`). -/
def isLeapYear (y : Int) : Bool := y % 4 = 0 ∧ (y % 100 ≠ 0 ∨ y % 400 = 0)

/-- Number of days of a month (Go `daysIn`). -/
def daysInMonth (m : Nat) (y : Int) : Nat :=
  if m = 2 then (if isLeapYear y then 29 else 28)
  else if m = 4 ∨ m = 6 ∨ m = 9 ∨ m = 11 then 30
  else 31

/-! Layout-element readers of Go `time.Parse`, specialized to the four fixed
layouts ftp.go uses. Each reader consumes from the front of the value and
returns the parsed number together with the rest, or `none` on a mismatch. -/

/-- Go `getnum(value, true)`: exactly two digits. -/
def getnum2 : List Char → Option (Nat × List Char)
  | a :: b :: rest =>
    if a.isDigit ∧ b.isDigit then some (dval a * 10 + dval b, rest) else none
  | _ => none

/-- Go `getnum(value, false)`: one or two digits. -/
def getnum12 : List Char → Option (Nat × List Char)
  | [] => none
  | [a] => if a.isDigit then some (dval a, []) else none
  | a :: b :: rest =>
    if a.isDigit then
      if b.isDigit then some (dval a * 10 + dval b, rest)
      else some (dval a, b :: rest)
    else none

/-- Four digits (layout element `2006`). -/
def getnum4 : List Char → Option (Nat × List Char)
  | a :: b :: c :: d :: rest =>
    if a.isDigit ∧ b.isDigit ∧ c.isDigit ∧ d.isDigit then
      some (dval a * 1000 + dval b * 100 + dval c * 10 + dval d, rest)
    else none
  | _ => none

/-- One expected literal character of the layout. -/
def expectChar (c : Char) : List Char → Option (List Char)
  | x :: rest => if x = c then some rest else none
  | [] => none

/-- Case-folding prefix match of Go `time`'s `match` (ASCII letters compare
case-insensitively). -/
def matchFold : List Char → List Char → Bool
  | [], _ => true
  | _ :: _, [] => false
  | a :: as, b :: bs =>
    (a = b ∨ (lowerChar a = lowerChar b ∧ 'a' ≤ lowerChar a ∧ lowerChar a ≤ 'z'))
      ∧ matchFold as bs

/-- The short month names of Go `time`. -/
def shortMonthNames : List (List Char) :=
  [strL "Jan", strL "Feb", strL "Mar", strL "Apr", strL "May", strL "Jun",
   strL "Jul", strL "Aug", strL "Sep", strL "Oct", strL "Nov", strL "Dec"]

/-- Go `lookup(shortMonthNames, value)`: the 1-based month of the first
(case-insensitive) matching name, and the remaining value. -/
def lookupMonth (value : List Char) : Option (Nat × List Char) :=
  (List.range 12).foldr
    (fun i acc =>
      let name := shortMonthNames.getD i []
      if matchFold name value then some (i + 1, value.drop name.length) else acc)
    none

/-- Model of `time.ParseInLocation("_2 Jan 2006 15:04", value, loc)`: space-padded
1-2 digit day, short month name, four-digit year, 1-2 digit hour, two-digit
minute; the whole value must be consumed and the fields must be in range
(the day checked against the month's length). `none` models the
`*time.ParseError` Go returns. -/
def parseTimeLs (value : List Char) : Option GoTime := do
  let v1 := match value with
    | ' ' :: rest => rest
    | v => v
  let (day, v2) ← getnum12 v1
  let v3 ← expectChar ' ' v2
  let (mon, v4) ← lookupMonth v3
  let v5 ← expectChar ' ' v4
  let (year, v6) ← getnum4 v5
  let v7 ← expectChar ' ' v6
  let (hour, v8) ← getnum12 v7
  let v9 ← expectChar ':' v8
  let (minute, v10) ← getnum2 v9
  if v10 = [] ∧ hour ≤ 23 ∧ minute ≤ 59 ∧ 1 ≤ day ∧ day ≤ daysInMonth mon (year : Int) then
    some ⟨(year : Int), mon, day, hour, minute, 0⟩
  else none

/-- Model of `time.ParseInLocation("20060102150405", value, loc)` (RFC-3659 `modify`
fact): fourteen digits, all fields range-checked. -/
def parseTimeCompact (value : List Char) : Option GoTime := do
  let (year, v1) ← getnum4 value
  let (month, v2) ← getnum2 v1
  let (day, v3) ← getnum2 v2
  let (hour, v4) ← getnum2 v3
  let (minute, v5) ← getnum2 v4
  let (second, v6) ← getnum2 v5
  if v6 = [] ∧ 1 ≤ month ∧ month ≤ 12 ∧ hour ≤ 23 ∧ minute ≤ 59 ∧ second ≤ 59
      ∧ 1 ≤ day ∧ day ≤ daysInMonth month (year : Int) then
    some ⟨(year : Int), month, day, hour, minute, second⟩
  else none

/-- Model of `time.ParseInLocation("01-02-06  03:04PM", value, loc)`: two-digit month,
day and year (69-99 → 19xx, otherwise 20xx), two spaces, two-digit 12-hour
clock, two-digit minute, then a literal `PM` or `AM` which adjusts the hour. -/
def parseTimeDosA (value : List Char) : Option GoTime := do
  let (month, v1) ← getnum2 value
  let v2 ← expectChar '-' v1
  let (day, v3) ← getnum2 v2
  let v4 ← expectChar '-' v3
  let (yy, v5) ← getnum2 v4
  let v6 ← expectChar ' ' v5
  let v7 ← expectChar ' ' v6
  let (hour12, v8) ← getnum2 v7
  let v9 ← expectChar ':' v8
  let (minute, v10) ← getnum2 v9
  match v10 with
  | p :: m :: v11 =>
    if v11 = [] ∧ (p = 'P' ∨ p = 'A') ∧ m = 'M' then
      let year : Int := if yy ≥ 69 then 1900 + (yy : Int) else 2000 + (yy : Int)
      let hour : Nat :=
        if p = 'P' then (if hour12 < 12 then hour12 + 12 else hour12)
        else (if hour12 = 12 then 0 else hour12)
      if 1 ≤ month ∧ month ≤ 12 ∧ hour12 ≤ 12 ∧ minute ≤ 59
          ∧ 1 ≤ day ∧ day ≤ daysInMonth month year then
        some ⟨year, month, day, hour, minute, 0⟩
      else none
    else none
  | _ => none

/-- Model of `time.ParseInLocation("2006-01-02  15:04", value, loc)`. -/
def parseTimeDosB (value : List Char) : Option GoTime := do
  let (year, v1) ← getnum4 value
  let v2 ← expectChar '-' v1
  let (month, v3) ← getnum2 v2
  let v4 ← expectChar '-' v3
  let (day, v5) ← getnum2 v4
  let v6 ← expectChar ' ' v5
  let v7 ← expectChar ' ' v6
  let (hour, v8) ← getnum12 v7
  let v9 ← expectChar ':' v8
  let (minute, v10) ← getnum2 v9
  if v10 = [] ∧ 1 ≤ month ∧ month ≤ 12 ∧ hour ≤ 23 ∧ minute ≤ 59
      ∧ 1 ≤ day ∧ day ≤ daysInMonth month (year : Int) then
    some ⟨(year : Int), month, day, hour, minute, 0⟩
  else none

/-! ## Entries and the listing-line parsers -/

/-- The error values a listing-line parser can produce. `unsupportedListLine`
is the sentinel the fallback chain keys on; `timeParse` stands for a
`*time.ParseError` and `numError` for a `*strconv.NumError`, both distinct
from the sentinel. -/
inductive GoErr
  | unsupportedListLine
  | unknownListEntryType
  | unsupportedListDate
  | timeParse
  | numError
deriving DecidableEq

/-- The three entry types, in declaration order (`EntryTypeFile` is the Go
zero value). -/
inductive EntryType
  | file
  | folder
  | link
deriving DecidableEq

/-- A normalized directory-listing record; the defaults are the Go zero
values of `Entry`. -/
structure Entry where
  name : List Char := []
  target : List Char := []
  type : EntryType := .file
  size : Nat := 0
  time : GoTime := zeroTime
deriving DecidableEq

/-- Model of `scanner.Next`: from `pos`, skip spaces, then read up to the next space
(consuming that space) or the end. Returns the field and the new position. -/
def scanNext (bytes : List Char) (pos : Nat) : List Char × Nat :=
  let rest := bytes.drop pos
  let sk := (rest.takeWhile (fun c => c = ' ')).length
  let rest2 := rest.drop sk
  let field := rest2.takeWhile (fun c => c ≠ ' ')
  (field, pos + sk + field.length + (if field.length < rest2.length then 1 else 0))

/-- Model of `scanner.NextFields(count)`: collect up to `count` nonempty fields,
stopping at the first empty one (whose skipped spaces still advance the
position, as in the Go code). -/
def scanNextFields : Nat → List Char → Nat → (List (List Char) × Nat)
  | 0, _, pos => ([], pos)
  | c + 1, bytes, pos =>
    let (f, p2) := scanNext bytes pos
    if f = [] then ([], p2)
    else
      let (fs, p3) := scanNextFields c bytes p2
      (f :: fs, p3)

/-- Model of `scanner.Remaining`. -/
def scanRemaining (bytes : List Char) (pos : Nat) : List Char := bytes.drop pos

/-- Go `%d` of an integer. -/
def intDec (n : Int) : List Char := (toString n).data

/-- Model of `Entry.setTime(fields, now, loc)`, returning the parsed (and possibly
year-corrected) time instead of mutating the entry; every caller that
receives an error discards the entry, so only the error is observable on
that path. With a time-of-day field the year is taken from `now` and the
result is moved one year back unless it is `Before(now.AddDate(0,6,0))`. -/
def setTime (f0 f1 f2 : List Char) (now : GoTime) : Except GoErr GoTime :=
  if goContains f2 (strL ":") then
    let timeStr := f1 ++ [' '] ++ f0 ++ [' '] ++ intDec now.year ++ [' '] ++ f2
    match parseTimeLs timeStr with
    | none => .error .timeParse
    | some t =>
      .ok (if goTimeBefore t (goAddDate now 0 6 0) then t else goAddDate t (-1) 0 0)
  else
    if f2.length ≠ 4 then .error .unsupportedListDate
    else
      let timeStr := f1 ++ [' '] ++ f0 ++ [' '] ++ f2 ++ [' '] ++ strL "00:00"
      match parseTimeLs timeStr with
      | none => .error .timeParse
      | some t => .ok t

/-- One pass over the semicolon-separated facts of an RFC-3659 line
(`modify`, `type`, `size`; unknown keys are ignored, and a `size` parse
failure is silently dropped, as `e.setSize(value)`'s error is discarded). -/
def rfcApplyFields : List (List Char) → Entry → Except GoErr Entry
  | [], e => .ok e
  | field :: rest, e =>
    let i := goIndexSub field (strL "=")
    if i < 1 then .error .unsupportedListLine
    else
      let key := goToLower (field.take i.toNat)
      let value := field.drop (i.toNat + 1)
      if key = strL "modify" then
        match parseTimeCompact value with
        | none => .error .timeParse
        | some t => rfcApplyFields rest { e with time := t }
      else if key = strL "type" then
        let ty :=
          if value = strL "dir" ∨ value = strL "cdir" ∨ value = strL "pdir" then
            EntryType.folder
          else if value = strL "file" then EntryType.file
          else e.type
        rfcApplyFields rest { e with type := ty }
      else if key = strL "size" then
        rfcApplyFields rest { e with size := (parseUint0 value).1 }
      else rfcApplyFields rest e

/-- Model of `parseRFC3659ListLine`. -/
def parseRFC3659ListLine (line : List Char) (_now : GoTime) :
    Option Entry × Option GoErr :=
  let iSemi := goIndexChar line ';'
  let iWs := goIndexChar line ' '
  if iSemi < 0 ∨ iSemi > iWs then (none, some .unsupportedListLine)
  else
    let e0 : Entry := { name := line.drop (iWs.toNat + 1) }
    match rfcApplyFields (splitChar ';' (line.take (iWs.toNat - 1))) e0 with
    | .error err => (none, some err)
    | .ok e => (some e, none)

/-- Model of `parseLsListLine`. -/
def parseLsListLine (line : List Char) (now : GoTime) :
    Option Entry × Option GoErr :=
  let i := goIndexChar line ' '
  if ¬ (i = 10 ∨ (i = 11 ∧ line.getD 10 ' ' = '+')) then
    (none, some .unsupportedListLine)
  else
    let (fields, p1) := scanNextFields 6 line 0
    if fields.length < 6 then (none, some .unsupportedListLine)
    else if fields.getD 1 [] = strL "folder" ∧ fields.getD 2 [] = strL "0" then
      match setTime (fields.getD 3 []) (fields.getD 4 []) (fields.getD 5 []) now with
      | .error err => (none, some err)
      | .ok t => (some { type := .folder, name := scanRemaining line p1, time := t }, none)
    else if fields.getD 1 [] = strL "0" then
      let (f6, p2) := scanNext line p1
      let fields7 := fields ++ [f6]
      let nm := scanRemaining line p2
      if (parseUint0 (fields7.getD 2 [])).2 = false then (none, some .unsupportedListLine)
      else
        match setTime (fields7.getD 4 []) (fields7.getD 5 []) (fields7.getD 6 []) now with
        | .error err => (none, some err)
        | .ok t =>
          (some { type := .file, name := nm, size := (parseUint0 (fields7.getD 2 [])).1,
                  time := t }, none)
    else
      let (fs2, p2) := scanNextFields 2 line p1
      let fields8 := fields ++ fs2
      if fields8.length < 8 then (none, some .unsupportedListLine)
      else
        let nm := scanRemaining line p2
        match (fields8.getD 0 []).head? with
        | some '-' =>
          if (parseUint0 (fields8.getD 4 [])).2 = false then (none, some .numError)
          else
            match setTime (fields8.getD 5 []) (fields8.getD 6 []) (fields8.getD 7 []) now with
            | .error err => (none, some err)
            | .ok t =>
              (some { type := .file, name := nm, size := (parseUint0 (fields8.getD 4 [])).1,
                      time := t }, none)
        | some 'd' =>
          match setTime (fields8.getD 5 []) (fields8.getD 6 []) (fields8.getD 7 []) now with
          | .error err => (none, some err)
          | .ok t => (some { type := .folder, name := nm, time := t }, none)
        | some 'l' =>
          let i2 := goIndexSub nm (strL " -> ")
          let e : Entry :=
            if i2 > 0 then
              { type := .link, name := nm.take i2.toNat, target := nm.drop (i2.toNat + 4) }
            else { type := .link, name := nm }
          match setTime (fields8.getD 5 []) (fields8.getD 6 []) (fields8.getD 7 []) now with
          | .error err => (none, some err)
          | .ok t => (some { e with time := t }, none)
        | _ => (none, some .unknownListEntryType)

/-- The date-format loop at the head of `parseDirListLine`: both candidate
layouts are 17 characters long and are only tried on lines strictly longer
than that. `none` means both failed (the line is unsupported); otherwise the
result carries the parsed time (or `none` when the loop never ran, leaving
the entry's zero time) and the rest of the line. -/
def parseDirTime (line : List Char) : Option (Option GoTime × List Char) :=
  if line.length > 17 then
    match parseTimeDosA (line.take 17) with
    | some t => some (some t, line.drop 17)
    | none =>
      match parseTimeDosB (line.take 17) with
      | some t => some (some t, line.drop 17)
      | none => none
  else some (none, line)

/-- Model of `parseDirListLine`. -/
def parseDirListLine (line : List Char) (_now : GoTime) :
    Option Entry × Option GoErr :=
  match parseDirTime line with
  | none => (none, some .unsupportedListLine)
  | some (tOpt, rest) =>
    let t := tOpt.getD zeroTime
    let rest2 := goTrimLeftSpace rest
    if goHasPrefix rest2 (strL "<DIR>") then
      (some { type := .folder, time := t, name := goTrimLeftSpace (rest2.drop 5) }, none)
    else
      let sp := goIndexChar rest2 ' '
      if sp = -1 then (none, some .unsupportedListLine)
      else if (parseUint10 (rest2.take sp.toNat)).2 = false then
        (none, some .unsupportedListLine)
      else
        (some { type := .file, size := (parseUint10 (rest2.take sp.toNat)).1, time := t,
                name := goTrimLeftSpace (rest2.drop sp.toNat) }, none)

/-- Model of `parseHostedFTPLine`. -/
def parseHostedFTPLine (line : List Char) (now : GoTime) :
    Option Entry × Option GoErr :=
  if goIndexChar line ' ' ≠ 10 then (none, some .unsupportedListLine)
  else
    let (fields, p1) := scanNextFields 2 line 0
    if fields.length < 2 ∨ fields.getD 1 [] ≠ strL "0" then
      (none, some .unsupportedListLine)
    else
      parseLsListLine (fields.getD 0 [] ++ strL " 1 " ++ scanRemaining line p1) now

/-- The fixed parser chain of `listLineParsers`. -/
def listLineParsers : List (List Char → GoTime → Option Entry × Option GoErr) :=
  [parseRFC3659ListLine, parseLsListLine, parseDirListLine, parseHostedFTPLine]

/-- The fallback loop of `parseListLine` over an arbitrary parser list. -/
def chainLines : List (List Char → GoTime → Option Entry × Option GoErr) →
    List Char → GoTime → Option Entry × Option GoErr
  | [], _, _ => (none, some .unsupportedListLine)
  | f :: fs, line, now =>
    let r := f line now
    if r.2 ≠ some .unsupportedListLine then r else chainLines fs line now

/-- Model of `parseListLine`: try each parser of `listLineParsers`, returning the
first result that is not the unsupported-line sentinel. -/
def parseListLine (line : List Char) (now : GoTime) : Option Entry × Option GoErr :=
  chainLines listLineParsers line now

/-! ## Control-protocol layer -/

/-- The continuation-reading loop of `receive`/`receiveNoDiscard` on the
stream of physical lines still to be read (each line as `ReadString('\n')`
delivers it, i.e. with its terminator). Returns the accumulated text and
whether the read failed (stream exhausted). A line shorter than four
characters is tolerated as an incorrectly terminated response; a line whose
first four characters are the closing code ends the reply. -/
def receiveLoop (closing : List Char) (acc : List Char) :
    List (List Char) → List Char × Bool
  | [] => (acc, true)
  | str :: rest =>
    let acc2 := acc ++ str
    if str.length < 4 then (acc2, false)
    else if str.take 4 = closing then (acc2, false)
    else receiveLoop closing acc2 rest

/-- Model of `receive` (and of `receiveNoDiscard`, which differs only in the buffered-byte
draining that does not affect the returned reply text): read one line; if it
is at least four characters long and its fourth character is `-`, keep
concatenating lines until the closing line (same three-digit code followed by
a space) or a short line or the end of the stream. -/
def receive : List (List Char) → List Char × Bool
  | [] => ([], true)
  | line :: rest =>
    if line.length ≥ 4 ∧ line.getD 3 ' ' = '-' then
      receiveLoop (line.take 3 ++ [' ']) line rest
    else (line, false)

/-! Status prefixes. ftp.go refers to named status constants whose defining
file is not among the provided sources; the spec lists them as semantic
categories (file-status-ok, closing-data-connection, connection-closing,
action-ok). -/

/-- Modelled from the spec: the "file status okay" prefix (`StatusFileOK`,
whose definition is not in the provided sources); standard FTP code 150. -/
def StatusFileOK : List Char := strL "150"

/-- Modelled from the spec: the "closing data connection" prefix
(`StatusClosingDataConnection`, not in the provided sources); standard FTP
code 226. -/
def StatusClosingDataConnection : List Char := strL "226"

/-- Modelled from the spec: the "connection closing" prefix
(`StatusConnectionClosing`, not in the provided sources); standard FTP
code 221. -/
def StatusConnectionClosing : List Char := strL "221"

/-! ## Passive negotiation -/

/-- The text strictly before the last `)` of the list, if any (helper for
the capture of the pattern match below). -/
def lastClose : List Char → Option (List Char)
  | [] => none
  | c :: cs =>
    match lastClose cs with
    | some t => some (c :: t)
    | none => if c = ')' then some [] else none

/-- The capture of Go's `regexp` pattern matching a parenthesized group with
a greedy dot (as compiled in `Pasv`): the text between the first `(` and the
last `)` after it, or `none` when the line has no such pair (then
`FindAllStringSubmatch` returns no match). -/
def pasvTuple : List Char → Option (List Char)
  | [] => none
  | c :: cs => if c = '(' then lastClose cs else pasvTuple cs

/-- Model of `Pasv` as a function of the control reply to the passive-mode command:
`cmd("227", "PASV")` fails with the raw reply when the prefix does not
match; otherwise the parenthesized group is extracted, split on commas, and
the port is computed from the last two fields with `strconv.Atoi` whose
error is discarded (`l1<<8 + l2`). The enclosing goroutine-and-timeout
wrapper returns exactly this result whenever the reply arrives in time;
the timeout itself is real-time behavior outside this model. -/
def Pasv (reply : List Char) : Except (List Char) Int :=
  if ¬ goHasPrefix reply (strL "227") then .error reply
  else
    match pasvTuple reply with
    | none => .error (strL "PasvBadAnswer")
    | some cap =>
      let s := splitChar ',' cap
      if s.length < 2 then .error (strL "PasvBadAnswer")
      else .ok (goAtoi (s.getD (s.length - 2) []) * 256 + goAtoi (s.getD (s.length - 1) []))

/-! ## Login -/

/-- Model of `Login(username, password)` as a function of the two control replies it
can read. `cmd("331", USER)` yields the raw reply as error text when the
prefix is not `331`; an error text with prefix `230` is tolerated (`err =
nil`) and the function falls through to `cmd("230", PASS)` in every
non-erroring case. The result is the final `err` value (`none` = nil). -/
def Login (userReply passReply : List Char) : Option (List Char) :=
  if goHasPrefix userReply (strL "331") then
    (if goHasPrefix passReply (strL "230") then none else some passReply)
  else if goHasPrefix userReply (strL "230") then
    (if goHasPrefix passReply (strL "230") then none else some passReply)
  else some userReply

/-! ## The recursive walker -/

/-- One pass of `parseLine` over the semicolon-separated segments of a raw
listing line, threading the `(perm, t, filename)` result triple. A segment
whose first `=`-part is `perm` or `type` but has no `=` makes the Go code
index past the end of the split (`v2[1]`), and a default-branch segment
shorter than three characters makes the slice `v[1:len(v)-2]` panic; both
are modelled as `none`. -/
def parseLineSegs : List (List Char) → List Char × List Char × List Char →
    Option (List Char × List Char × List Char)
  | [], st => some st
  | v :: rest, (perm, t, fn) =>
    match splitChar '=' v with
    | [] => none
    | key :: vals =>
      if key = strL "perm" then
        match vals with
        | val :: _ => parseLineSegs rest (val, t, fn)
        | [] => none
      else if key = strL "type" then
        match vals with
        | val :: _ => parseLineSegs rest (perm, val, fn)
        | [] => none
      else
        if v.length ≥ 3 then parseLineSegs rest (perm, t, (v.drop 1).take (v.length - 3))
        else none

/-- Model of `parseLine(line)`: split on `;` and fold `parseLineSegs` from the empty
triple. -/
def parseLine (line : List Char) : Option (List Char × List Char × List Char) :=
  parseLineSegs (splitChar ';' line) ([], [], [])

mutual

/-- A remote directory tree node: the abstraction over which `Walk` is
modelled. A node is a file or a directory with an ordered child list (the
order in which the server's listing reports them); the child list is its
own inductive so that the walk is structurally recursive. -/
inductive FNode
  | file (name : List Char)
  | dir (name : List Char) (children : FForest)

/-- An ordered list of tree nodes (one directory's children). -/
inductive FForest
  | nil
  | cons (head : FNode) (tail : FForest)

end

/-- The raw listing line `List2` delivers for one child entry: a
machine-readable fact line with a `type` fact, the name field after `"; "`,
and the `\r\n` terminator that `ReadString('\n')` keeps. -/
def lineFor : FNode → List Char
  | .file n => strL "type=file; " ++ n ++ strL "\r\n"
  | .dir n _ => strL "type=dir; " ++ n ++ strL "\r\n"

mutual

/-- Model of the recursive call `ftp.Walk(path+subpath+"/", walkFn)` made for
a directory entry: listing the subdirectory's path yields the lines of its
children, which `walkForest` processes. (A file node has no listing; that
case is unreachable because its line always parses as `type=file`.) -/
def walkNode (fn : List Char → Option (List Char)) :
    FNode → List Char → Except (List Char) (List (List Char))
  | FNode.file _, _ => .ok []
  | FNode.dir _ cs, path => walkForest fn cs path

/-- Model of `Walk(path, walkFn)` over a directory's children: for each raw
line, `parseLine` extracts the type and name; `dir` entries other than `.`
and `..` are walked recursively at `path+subpath+"/"`, `file` entries invoke
the callback on `path+subpath` (the `os.FileMode(0), nil` arguments carry no
information), and a callback or recursion error aborts the walk. The
returned list records the paths of the successful callback invocations in
order; a `parseLine` panic is `.error "panic"`. -/
def walkForest (fn : List Char → Option (List Char)) :
    FForest → List Char → Except (List Char) (List (List Char))
  | .nil, _ => .ok []
  | .cons c rest, path =>
    match parseLine (lineFor c) with
    | none => .error (strL "panic")
    | some (_, t, sub) =>
      if t = strL "dir" then
        if sub = strL "." ∨ sub = strL ".." then walkForest fn rest path
        else
          match walkNode fn c (path ++ sub ++ strL "/") with
          | .error e => .error e
          | .ok v1 =>
            match walkForest fn rest path with
            | .error e => .error e
            | .ok v2 => .ok (v1 ++ v2)
      else if t = strL "file" then
        match fn (path ++ sub) with
        | some e => .error e
        | none =>
          match walkForest fn rest path with
          | .error e => .error e
          | .ok v2 => .ok ((path ++ sub) :: v2)
      else walkForest fn rest path

end

mutual

/-- The visit sequence the specification describes below one directory
entry (recursion into `path+name+"/"`). -/
def specVisitsNode : FNode → List Char → List (List Char)
  | .file _, _ => []
  | .dir _ cs, path => specVisits cs path

/-- The visit sequence the specification describes for `Walk` (stated from
the spec's words, to be compared with `walkForest`): depth-first pre-order,
one visit per file entry at the concatenated path, recursion into
`path+name+"/"` for directories, with the `.` and `..` pseudo-entries
skipped and never visited. -/
def specVisits : FForest → List Char → List (List Char)
  | .nil, _ => []
  | .cons (.file n) rest, p => (p ++ n) :: specVisits rest p
  | .cons (.dir n cs) rest, p =>
    (if n = strL "." ∨ n = strL ".." then []
     else specVisitsNode (.dir n cs) (p ++ n ++ strL "/")) ++ specVisits rest p

end

mutual

/-- Name sanity below one node: no `;` in any name (a `;` inside a name
would split the fact line); nothing else is required. -/
def nameOkNode : FNode → Bool
  | .file n => !(n.contains ';')
  | .dir n cs => !(n.contains ';') && namesOk cs

/-- Name sanity of a whole forest. -/
def namesOk : FForest → Bool
  | .nil => true
  | .cons c rest => nameOkNode c && namesOk rest

end

/-! ## Transfer operations as control/data-channel traces

Each data-transfer method is modelled as a function of an environment that
fixes the outcome of every I/O step it performs, returning the method's
error result together with the ordered trace of its externally visible
actions. `Ev.ctrl` is one `cmd` exchange (TYPE, and the PASV negotiation),
`Ev.send` a bare command write, `Ev.openData`/`Ev.closeData` the data
connection's dial and close (including the deferred close at return),
`Ev.recvInit` the transfer-initiating reply read, `Ev.xfer` the byte
transfer (`io.Copy`, the `retrFn` callback, or the listing read loop), and
`Ev.recvFinal` the read of the final completion reply after the transfer. -/

inductive Ev
  | ctrl (cmd : List Char)
  | send (cmd : List Char)
  | openData
  | recvInit
  | xfer
  | closeData
  | recvFinal
deriving DecidableEq

/-- Outcomes of the individual I/O steps of a transfer method. `Option`
fields are `some err` when the step fails; `Except` fields carry the reply
line read on success. Fields irrelevant to a given method are unused. -/
structure NetEnv where
  typeRes : Option (List Char)
  pasvRes : Except (List Char) Int
  sendRest : Option (List Char)
  sendMain : Option (List Char)
  connRes : Option (List Char)
  recvInit : Except (List Char) (List Char)
  sendList : Option (List Char)
  recvInit2 : Except (List Char) (List Char)
  xferRes : Option (List Char)
  recvFinal : Except (List Char) (List Char)

/-- An environment in which every step succeeds, with the given initiating
and final replies. -/
def envOk (init fin : List Char) : NetEnv :=
  ⟨none, .ok 1024, none, none, none, .ok init, none, .ok init, none, .ok fin⟩

/-- Model of `Stor(path, r)`: TYPE I, PASV, send STOR, dial the data connection
(deferred close), read the initiating reply, copy `r` into the data
connection (an error here returns at once), close it, read the final reply
and require the closing-data-connection prefix. -/
def Stor (e : NetEnv) : Option (List Char) × List Ev :=
  match e.typeRes with
  | some err => (some err, [.ctrl (strL "TYPE I")])
  | none =>
  match e.pasvRes with
  | .error err => (some err, [.ctrl (strL "TYPE I"), .ctrl (strL "PASV")])
  | .ok _ =>
  let pre := [Ev.ctrl (strL "TYPE I"), Ev.ctrl (strL "PASV"), Ev.send (strL "STOR")]
  match e.sendMain with
  | some err => (some err, pre)
  | none =>
  match e.connRes with
  | some err => (some err, pre)
  | none =>
  match e.recvInit with
  | .error err => (some err, pre ++ [.openData, .recvInit, .closeData])
  | .ok _ =>
  match e.xferRes with
  | some err => (some err, pre ++ [.openData, .recvInit, .xfer, .closeData])
  | none =>
  match e.recvFinal with
  | .error err =>
    (some err, pre ++ [.openData, .recvInit, .xfer, .closeData, .recvFinal, .closeData])
  | .ok line =>
    (if goHasPrefix line StatusClosingDataConnection then none else some line,
     pre ++ [.openData, .recvInit, .xfer, .closeData, .recvFinal, .closeData])

/-- Model of `StorFrom(path, r, offset)`: as `Stor` with `REST <offset>` sent before
`STOR`, except that the final-reply prefix check returns `nil` in both of
its branches, so the reply's status never produces an error. -/
def StorFrom (e : NetEnv) : Option (List Char) × List Ev :=
  match e.typeRes with
  | some err => (some err, [.ctrl (strL "TYPE I")])
  | none =>
  match e.pasvRes with
  | .error err => (some err, [.ctrl (strL "TYPE I"), .ctrl (strL "PASV")])
  | .ok _ =>
  match e.sendRest with
  | some err => (some err, [.ctrl (strL "TYPE I"), .ctrl (strL "PASV"), .send (strL "REST")])
  | none =>
  let pre := [Ev.ctrl (strL "TYPE I"), Ev.ctrl (strL "PASV"), Ev.send (strL "REST"),
              Ev.send (strL "STOR")]
  match e.sendMain with
  | some err => (some err, pre)
  | none =>
  match e.connRes with
  | some err => (some err, pre)
  | none =>
  match e.recvInit with
  | .error err => (some err, pre ++ [.openData, .recvInit, .closeData])
  | .ok _ =>
  match e.xferRes with
  | some err => (some err, pre ++ [.openData, .recvInit, .xfer, .closeData])
  | none =>
  match e.recvFinal with
  | .error err =>
    (some err, pre ++ [.openData, .recvInit, .xfer, .closeData, .recvFinal, .closeData])
  | .ok _line =>
    (none, pre ++ [.openData, .recvInit, .xfer, .closeData, .recvFinal, .closeData])

/-- Model of `Retr(path, retrFn)`: TYPE I, PASV, send RETR, dial (deferred close),
read the initiating reply without draining, run the callback on the data
connection (an error here returns at once), close, read the final reply and
require the closing-data-connection prefix. -/
def Retr (e : NetEnv) : Option (List Char) × List Ev :=
  match e.typeRes with
  | some err => (some err, [.ctrl (strL "TYPE I")])
  | none =>
  match e.pasvRes with
  | .error err => (some err, [.ctrl (strL "TYPE I"), .ctrl (strL "PASV")])
  | .ok _ =>
  let pre := [Ev.ctrl (strL "TYPE I"), Ev.ctrl (strL "PASV"), Ev.send (strL "RETR")]
  match e.sendMain with
  | some err => (some err, pre)
  | none =>
  match e.connRes with
  | some err => (some err, pre)
  | none =>
  match e.recvInit with
  | .error err => (some err, pre ++ [.openData, .recvInit, .closeData])
  | .ok _ =>
  match e.xferRes with
  | some err => (some err, pre ++ [.openData, .recvInit, .xfer, .closeData])
  | none =>
  match e.recvFinal with
  | .error err =>
    (some err, pre ++ [.openData, .recvInit, .xfer, .closeData, .recvFinal, .closeData])
  | .ok line =>
    (if goHasPrefix line StatusClosingDataConnection then none else some line,
     pre ++ [.openData, .recvInit, .xfer, .closeData, .recvFinal, .closeData])

/-- Model of `RetrFrom(path, offset, retrFn)`: as `Retr` with `REST <offset>` sent
before `RETR`; the final-reply check is intact here. -/
def RetrFrom (e : NetEnv) : Option (List Char) × List Ev :=
  match e.typeRes with
  | some err => (some err, [.ctrl (strL "TYPE I")])
  | none =>
  match e.pasvRes with
  | .error err => (some err, [.ctrl (strL "TYPE I"), .ctrl (strL "PASV")])
  | .ok _ =>
  match e.sendRest with
  | some err => (some err, [.ctrl (strL "TYPE I"), .ctrl (strL "PASV"), .send (strL "REST")])
  | none =>
  let pre := [Ev.ctrl (strL "TYPE I"), Ev.ctrl (strL "PASV"), Ev.send (strL "REST"),
              Ev.send (strL "RETR")]
  match e.sendMain with
  | some err => (some err, pre)
  | none =>
  match e.connRes with
  | some err => (some err, pre)
  | none =>
  match e.recvInit with
  | .error err => (some err, pre ++ [.openData, .recvInit, .closeData])
  | .ok _ =>
  match e.xferRes with
  | some err => (some err, pre ++ [.openData, .recvInit, .xfer, .closeData])
  | none =>
  match e.recvFinal with
  | .error err =>
    (some err, pre ++ [.openData, .recvInit, .xfer, .closeData, .recvFinal, .closeData])
  | .ok line =>
    (if goHasPrefix line StatusClosingDataConnection then none else some line,
     pre ++ [.openData, .recvInit, .xfer, .closeData, .recvFinal, .closeData])

/-- Model of `List(path)`: TYPE A, PASV, send MLSD (a send failure is ignored by the
code), dial (deferred close), read the initiating reply; if it does not
carry the file-status-ok prefix, fall back to sending LIST and reading its
initiating reply; then scan the data connection's lines through the parser
(`Ev.xfer`; a scanner error returns it). The function then returns directly:
the `receive` of the final completion reply and its status check that follow
in the source are after an unconditional `return` and never execute, so no
`Ev.recvFinal` ever appears. Entry accumulation is not modelled; the claim
under study concerns the reply protocol. -/
def ListEntries (e : NetEnv) : Option (List Char) × List Ev :=
  match e.typeRes with
  | some err => (some err, [.ctrl (strL "TYPE A")])
  | none =>
  match e.pasvRes with
  | .error err => (some err, [.ctrl (strL "TYPE A"), .ctrl (strL "PASV")])
  | .ok _ =>
  let pre := [Ev.ctrl (strL "TYPE A"), Ev.ctrl (strL "PASV"), Ev.send (strL "MLSD")]
  match e.connRes with
  | some err => (some err, pre)
  | none =>
  match e.recvInit with
  | .error err => (some err, pre ++ [.openData, .recvInit, .closeData])
  | .ok line =>
  if goHasPrefix line StatusFileOK then
    match e.xferRes with
    | some err => (some err, pre ++ [.openData, .recvInit, .xfer, .closeData])
    | none => (none, pre ++ [.openData, .recvInit, .xfer, .closeData])
  else
    match e.sendList with
    | some err => (some err, pre ++ [.openData, .recvInit, .send (strL "LIST"), .closeData])
    | none =>
    match e.recvInit2 with
    | .error err =>
      (some err, pre ++ [.openData, .recvInit, .send (strL "LIST"), .recvInit, .closeData])
    | .ok _ =>
    match e.xferRes with
    | some err =>
      (some err, pre ++ [.openData, .recvInit, .send (strL "LIST"), .recvInit, .xfer, .closeData])
    | none =>
      (none, pre ++ [.openData, .recvInit, .send (strL "LIST"), .recvInit, .xfer, .closeData])

/-- The tail of `List2` after the initiating replies: the raw `ReadString`
loop over the data connection (`Ev.xfer`; a non-EOF read error returns it),
then the explicit close, the final completion reply, and its
closing-data-connection prefix check. -/
def list2Tail (e : NetEnv) (pre2 : List Ev) : Option (List Char) × List Ev :=
  match e.xferRes with
  | some err => (some err, pre2 ++ [.xfer, .closeData])
  | none =>
  match e.recvFinal with
  | .error err => (some err, pre2 ++ [.xfer, .closeData, .recvFinal, .closeData])
  | .ok fin =>
    (if goHasPrefix fin StatusClosingDataConnection then none else some fin,
     pre2 ++ [.xfer, .closeData, .recvFinal, .closeData])

/-- Model of `List2(path)`: as `List` up to the line loop, then `list2Tail`. -/
def List2 (e : NetEnv) : Option (List Char) × List Ev :=
  match e.typeRes with
  | some err => (some err, [.ctrl (strL "TYPE A")])
  | none =>
  match e.pasvRes with
  | .error err => (some err, [.ctrl (strL "TYPE A"), .ctrl (strL "PASV")])
  | .ok _ =>
  let pre := [Ev.ctrl (strL "TYPE A"), Ev.ctrl (strL "PASV"), Ev.send (strL "MLSD")]
  match e.connRes with
  | some err => (some err, pre)
  | none =>
  match e.recvInit with
  | .error err => (some err, pre ++ [.openData, .recvInit, .closeData])
  | .ok line =>
  if goHasPrefix line StatusFileOK then
    list2Tail e (pre ++ [Ev.openData, Ev.recvInit])
  else
    match e.sendList with
    | some err => (some err, pre ++ [.openData, .recvInit, .send (strL "LIST"), .closeData])
    | none =>
    match e.recvInit2 with
    | .error err =>
      (some err, pre ++ [.openData, .recvInit, .send (strL "LIST"), .recvInit, .closeData])
    | .ok _ =>
      list2Tail e (pre ++ [Ev.openData, Ev.recvInit, Ev.send (strL "LIST"), Ev.recvInit])

/-! ## Quit and Close -/

/-- The session's connection field: `some ()` a live connection value,
`none` the nil interface. -/
abbrev ConnField : Type := Option Unit

/-- Model of `Quit()` as a function of the QUIT reply and the connection field: on a
connection-closing reply the connection is closed and the field set to nil;
on any other reply the error is returned and the field untouched. -/
def Quit (reply : List Char) (conn : ConnField) : ConnField × Option (List Char) :=
  if goHasPrefix reply StatusConnectionClosing then (none, none)
  else (conn, some reply)

/-- Model of `Close()`: calls `conn.Close()` on the stored connection; on the nil
interface this is a nil-pointer dereference, modelled as `.error ()`. -/
def Close (conn : ConnField) : Except Unit Unit :=
  match conn with
  | some _ => .ok ()
  | none => .error ()

/-! ## Concrete objects used by the theorems -/

/-- The children of `/a/b/` in the walker scenario: the `.`/`..`
pseudo-entries and the file `d.txt`. -/
def demoSub : FForest :=
  .cons (.dir (strL ".") .nil) (.cons (.dir (strL "..") .nil)
    (.cons (.file (strL "d.txt")) .nil))

/-- The children of `/a/` in the walker scenario: the `.`/`..`
pseudo-entries, the file `c.txt`, and the folder `b` (listed in the order
that realizes the visit order of the scenario). -/
def demoTree : FForest :=
  .cons (.dir (strL ".") .nil) (.cons (.dir (strL "..") .nil)
    (.cons (.file (strL "c.txt")) (.cons (.dir (strL "b") demoSub) .nil)))

/-! ## Theorems about the claims -/

/-- C1: the claim states that every operation opening a passive data channel
reads the final control-channel completion reply on every path on which the
channel was opened. The code does not: a fully successful `List` opens the
data channel, returns after the scanner loop, and never executes the
final-reply read that follows its unconditional `return`; and a `Stor`
whose data copy fails returns at once without the final read. This theorem
evaluates both failing runs. -/
theorem claimC1_final_reply_skipped :
    (ListEntries (envOk (strL "150 Opening\r\n") (strL "226 Done\r\n"))).1 = none
    ∧ Ev.openData ∈ (ListEntries (envOk (strL "150 Opening\r\n") (strL "226 Done\r\n"))).2
    ∧ Ev.recvFinal ∉ (ListEntries (envOk (strL "150 Opening\r\n") (strL "226 Done\r\n"))).2
    ∧ (Stor { envOk (strL "150 Opening\r\n") (strL "226 Done\r\n") with
        xferRes := some (strL "copy failed") }).1 = some (strL "copy failed")
    ∧ Ev.openData ∈ (Stor { envOk (strL "150 Opening\r\n") (strL "226 Done\r\n") with
        xferRes := some (strL "copy failed") }).2
    ∧ Ev.recvFinal ∉ (Stor { envOk (strL "150 Opening\r\n") (strL "226 Done\r\n") with
        xferRes := some (strL "copy failed") }).2 := by decide

/-- C2: the claim states that `StorFrom` and `RetrFrom` succeed only when
the final reply carries the closing-data-connection prefix. `RetrFrom`
does; `StorFrom` returns nil in both branches of its final-status check, so
it reports success even for a `550` final reply while `RetrFrom` on the
same replies reports the error. -/
theorem claimC2_storfrom_ignores_final_status :
    (StorFrom (envOk (strL "150 Opening\r\n") (strL "550 Failed\r\n"))).1 = none
    ∧ goHasPrefix (strL "550 Failed\r\n") StatusClosingDataConnection = false
    ∧ (RetrFrom (envOk (strL "150 Opening\r\n") (strL "550 Failed\r\n"))).1
        = some (strL "550 Failed\r\n") := by decide

/-- C8 counterexample: the claim says a `230` reply to USER makes `Login`
return no error. The code only suppresses the USER-step error and still
sends PASS; when the PASS reply is not `230`, `Login` returns that reply as
an error. -/
theorem claimC8_user230_still_errors :
    Login (strL "230 Logged in\r\n") (strL "503 Already logged in\r\n")
      = some (strL "503 Already logged in\r\n") := by decide

/-- C8 amended: `Login` tolerates a `230` USER reply exactly like a `331`
one (the USER step does not fail), but PASS is sent in both cases and the
overall call returns no error precisely when the USER reply has prefix
`331` or `230` and the PASS reply has prefix `230`; with a tolerated `230`
USER reply and a non-`230` PASS reply, the PASS reply is returned as the
error. -/
theorem claimC8_login_amended (u p : List Char) :
    (Login u p = none ↔
      ((goHasPrefix u (strL "331") = true ∨ goHasPrefix u (strL "230") = true)
        ∧ goHasPrefix p (strL "230") = true))
    ∧ (goHasPrefix u (strL "230") = true → goHasPrefix p (strL "230") = false →
        Login u p = some p) := by
  unfold Login
  by_cases h1 : goHasPrefix u (strL "331") = true <;>
    by_cases h2 : goHasPrefix u (strL "230") = true <;>
      by_cases h3 : goHasPrefix p (strL "230") = true <;>
        simp_all

/-- C8 amended, witness: the amended theorem applied to a tolerated `230`
USER reply followed by a rejected PASS. -/
theorem claimC8_login_amended_witness :
    Login (strL "230 Anonymous ok\r\n") (strL "530 Not logged in\r\n")
      = some (strL "530 Not logged in\r\n") :=
  (claimC8_login_amended (strL "230 Anonymous ok\r\n") (strL "530 Not logged in\r\n")).2
    (by decide) (by decide)

/-- C10: after a successful `Quit` the connection field is nil, and `Close`
on that state dereferences the nil interface; on a session whose `Quit` has
not succeeded the field still holds a connection and `Close` is safe. -/
theorem claimC10_close_after_quit (reply : List Char) (conn : ConnField)
    (h : goHasPrefix reply StatusConnectionClosing = true) :
    (Quit reply conn).1 = none
    ∧ Close (Quit reply conn).1 = .error ()
    ∧ (∀ c : Unit, Close (some c) = .ok ()) := by
  refine ⟨?_, ?_, fun c => rfl⟩ <;> simp [Quit, Close, h]

/-- C10 witness: `Quit` on a `221` reply followed by `Close`. -/
theorem claimC10_close_after_quit_witness :
    (Quit (strL "221 Bye\r\n") (some ())).1 = none
    ∧ Close (Quit (strL "221 Bye\r\n") (some ())).1 = .error ()
    ∧ Close (some ()) = .ok () :=
  let h := claimC10_close_after_quit (strL "221 Bye\r\n") (some ()) (by decide)
  ⟨h.1, h.2.1, h.2.2 ()⟩

/-- C3 counterexample: the claim says a passive reply with non-numeric port
fields makes `Pasv` return a negotiation error and no derived port. The
code discards the `Atoi` errors, so such a reply yields the successfully
derived port 0 and no error. -/
theorem claimC3_nonnumeric_ports_accepted :
    Pasv (strL "227 Entering Passive Mode (a,b,c,d,e,f)\r\n") = .ok 0 := by decide

/-- C3 amended: `Pasv` returns the negotiation error `PasvBadAnswer` when
the reply has no parenthesized group or the group splits into fewer than
two comma-separated fields; non-numeric port fields are not detected (each
unparsable field is read as 0). -/
theorem claimC3_pasv_malformed (reply : List Char)
    (h : goHasPrefix reply (strL "227") = true) :
    (pasvTuple reply = none → Pasv reply = .error (strL "PasvBadAnswer"))
    ∧ (∀ cap, pasvTuple reply = some cap → (splitChar ',' cap).length < 2 →
        Pasv reply = .error (strL "PasvBadAnswer")) := by
  constructor
  · intro hn
    simp [Pasv, h, hn]
  · intro cap hc hl
    simp [Pasv, h, hc, hl]

/-- C3 amended, witness: the amended theorem applied to a `227` reply with
no parenthesized group. -/
theorem claimC3_pasv_malformed_witness :
    Pasv (strL "227 Entering Passive Mode\r\n") = .error (strL "PasvBadAnswer") :=
  (claimC3_pasv_malformed (strL "227 Entering Passive Mode\r\n") (by decide)).1 (by decide)

/-- Helper: running the continuation loop over well-formed body lines up to
the closing line concatenates everything onto the accumulator and stops at
the closing line, with no read failure. -/
theorem receiveLoop_run (closing last : List Char) (rest : List (List Char))
    (hcl : closing.length = 4) (hlast : last.take 4 = closing) :
    ∀ (body : List (List Char)) (acc : List Char),
      (∀ b ∈ body, 4 ≤ b.length ∧ b.take 4 ≠ closing) →
      receiveLoop closing acc (body ++ last :: rest)
        = (acc ++ (body.flatten ++ last), false) := by
  intro body
  induction body with
  | nil =>
    intro acc _
    have h4 : ¬ last.length < 4 := by
      intro h
      have hl : (last.take 4).length = last.length := by
        rw [List.length_take]; omega
      rw [hlast, hcl] at hl; omega
    simp [receiveLoop, h4, hlast]
  | cons b bs ih =>
    intro acc hb
    have hb1 := hb b (by simp)
    have h4 : ¬ b.length < 4 := by omega
    simp only [List.cons_append, List.append_eq, receiveLoop, h4, if_false, hb1.2, ite_false]
    rw [ih (acc ++ b) (fun x hx => hb x (by simp [hx]))]
    simp [List.append_assoc]

/-- C5: a well-formed multi-line reply (first line of length at least four
with `-` as fourth character, body lines of length at least four not
starting with the closing code, terminated by a line whose first four
characters are the code followed by a space) is returned by `receive` as the
concatenation of all its physical lines; a reply whose first line has a
space as fourth character is returned as exactly that line. -/
theorem claimC5_receive :
    (∀ (first last : List Char) (body rest : List (List Char)),
      4 ≤ first.length → first.getD 3 ' ' = '-' →
      (∀ b ∈ body, 4 ≤ b.length ∧ b.take 4 ≠ first.take 3 ++ [' ']) →
      last.take 4 = first.take 3 ++ [' '] →
      receive (first :: (body ++ last :: rest))
        = (first ++ (body.flatten ++ last), false))
    ∧ (∀ (line : List Char) (rest : List (List Char)),
      line.getD 3 ' ' = ' ' →
      receive (line :: rest) = (line, false)) := by
  constructor
  · intro first last body rest h4 hdash hbody hlast
    have hcl : (first.take 3 ++ [' ']).length = 4 := by
      simp [List.length_take]; omega
    simp only [receive]
    rw [if_pos ⟨h4, hdash⟩]
    exact receiveLoop_run _ last rest hcl hlast body first hbody
  · intro line rest h
    have hno : ¬ (line.length ≥ 4 ∧ line.getD 3 ' ' = '-') := by
      rintro ⟨_, hd⟩
      rw [h] at hd
      exact absurd hd (by decide)
    simp only [receive]
    rw [if_neg hno]

/-- C5 witness: the theorem applied to a three-line `230` reply and to a
single-line `200` reply. -/
theorem claimC5_receive_witness :
    receive [strL "230-Welcome\r\n", strL "Hello\r\n", strL "230 Done\r\n"]
      = (strL "230-Welcome\r\nHello\r\n230 Done\r\n", false)
    ∧ receive [strL "200 OK\r\n", strL "500 junk\r\n"] = (strL "200 OK\r\n", false) := by
  constructor
  · exact (claimC5_receive.1 (strL "230-Welcome\r\n") (strL "230 Done\r\n")
      [strL "Hello\r\n"] [] (by decide) (by decide) (by decide) (by decide)).trans
      (by decide)
  · exact claimC5_receive.2 (strL "200 OK\r\n") [strL "500 junk\r\n"] (by decide)

/-- Helper: when every parser of a chain reports the sentinel, the chain
falls through to the sentinel with no entry. -/
theorem chainLines_all_unsupported (line : List Char) (now : GoTime) :
    ∀ fs, (∀ f ∈ fs, (f line now).2 = some GoErr.unsupportedListLine) →
      chainLines fs line now = (none, some GoErr.unsupportedListLine) := by
  intro fs
  induction fs with
  | nil => intro _; rfl
  | cons f fs ih =>
    intro h
    have hf := h f (by simp)
    simp only [chainLines]
    rw [if_neg (by simp [hf])]
    exact ih (fun g hg => h g (by simp [hg]))

/-- Helper: the chain returns the result of the first parser whose outcome
is not the sentinel, given that all parsers before it report the sentinel. -/
theorem chainLines_first (line : List Char) (now : GoTime) :
    ∀ (pre : List (List Char → GoTime → Option Entry × Option GoErr)) f post,
      (∀ g ∈ pre, (g line now).2 = some GoErr.unsupportedListLine) →
      (f line now).2 ≠ some GoErr.unsupportedListLine →
      chainLines (pre ++ f :: post) line now = f line now := by
  intro pre
  induction pre with
  | nil =>
    intro f post _ hf
    simp only [List.nil_append, chainLines]
    rw [if_pos hf]
  | cons g gs ih =>
    intro f post hpre hf
    have hg := hpre g (by simp)
    simp only [List.cons_append, chainLines]
    rw [if_neg (by simp [hg])]
    exact ih f post (fun x hx => hpre x (by simp [hx])) hf

/-- Helper: whenever the chain's outcome is the sentinel, its entry is
`none` (the fall-through pair is the only way the sentinel escapes). -/
theorem chainLines_unsupported_none (line : List Char) (now : GoTime) :
    ∀ fs, (chainLines fs line now).2 = some GoErr.unsupportedListLine →
      (chainLines fs line now).1 = none := by
  intro fs
  induction fs with
  | nil => intro _; rfl
  | cons f fs ih =>
    intro h
    by_cases hf : (f line now).2 = some GoErr.unsupportedListLine
    · simp only [chainLines] at h ⊢
      rw [if_neg (by simp [hf])] at h ⊢
      exact ih h
    · simp only [chainLines] at h ⊢
      rw [if_pos hf] at h ⊢
      exact absurd h hf

/-- C6: (i) when each parser of the fallback chain reports the
unsupported-line sentinel, `parseListLine` returns the sentinel and no
entry; (ii) the chain stops at the first parser whose outcome is not the
sentinel and returns that parser's result; (iii) an unsupported-line
outcome of the chain never comes with an entry. -/
theorem claimC6_parse_chain :
    (∀ (line : List Char) (now : GoTime),
      (∀ f ∈ listLineParsers, (f line now).2 = some GoErr.unsupportedListLine) →
      parseListLine line now = (none, some GoErr.unsupportedListLine))
    ∧ (∀ (line : List Char) (now : GoTime)
        (f : List Char → GoTime → Option Entry × Option GoErr) (pre post : _),
      listLineParsers = pre ++ f :: post →
      (∀ g ∈ pre, (g line now).2 = some GoErr.unsupportedListLine) →
      (f line now).2 ≠ some GoErr.unsupportedListLine →
      parseListLine line now = f line now)
    ∧ (∀ (line : List Char) (now : GoTime),
      (parseListLine line now).2 = some GoErr.unsupportedListLine →
      (parseListLine line now).1 = none) := by
  refine ⟨?_, ?_, ?_⟩
  · intro line now h
    exact chainLines_all_unsupported line now listLineParsers h
  · intro line now f pre post heq hpre hf
    unfold parseListLine
    rw [heq]
    exact chainLines_first line now pre f post hpre hf
  · intro line now h
    exact chainLines_unsupported_none line now listLineParsers h

/-- C6 witness: the empty line is rejected by all four parsers and the
chain returns the sentinel with no entry; a DOS `DIR` line is rejected by
the RFC-3659 and Unix parsers and the chain returns exactly the DOS
parser's result. -/
theorem claimC6_parse_chain_witness :
    parseListLine (strL "") zeroTime = (none, some GoErr.unsupportedListLine)
    ∧ parseListLine (strL "01-02-06  03:04PM   <DIR>          subdir")
        (⟨2023, 6, 15, 12, 0, 0⟩ : GoTime)
      = parseDirListLine (strL "01-02-06  03:04PM   <DIR>          subdir")
        (⟨2023, 6, 15, 12, 0, 0⟩ : GoTime) := by
  constructor
  · refine claimC6_parse_chain.1 (strL "") zeroTime ?_
    intro f hf
    simp only [listLineParsers, List.mem_cons, List.not_mem_nil, or_false] at hf
    rcases hf with rfl | rfl | rfl | rfl <;> decide
  · refine claimC6_parse_chain.2.1 (strL "01-02-06  03:04PM   <DIR>          subdir")
      (⟨2023, 6, 15, 12, 0, 0⟩ : GoTime) parseDirListLine
      [parseRFC3659ListLine, parseLsListLine] [parseHostedFTPLine] rfl ?_ (by decide)
    intro g hg
    simp only [List.mem_cons, List.not_mem_nil, or_false] at hg
    rcases hg with rfl | rfl <;> decide

/-- C7 counterexample: the claim shifts the inferred timestamp back a year
only when it is more than six months in the future and leaves it unchanged
otherwise. At exactly six months (`now` 2023-01-01, line date `Jul 1
00:00` parsed as 2023-07-01, which equals `now.AddDate(0,6,0)`) the parsed
time is not more than six months ahead, yet `setTime` shifts it to
2022-07-01. -/
theorem claimC7_boundary_shifted :
    parseTimeLs (strL "1 Jul 2023 00:00") = some (⟨2023, 7, 1, 0, 0, 0⟩ : GoTime)
    ∧ ¬ (absSec (goAddDate (⟨2023, 1, 1, 0, 0, 0⟩ : GoTime) 0 6 0)
          < absSec (⟨2023, 7, 1, 0, 0, 0⟩ : GoTime))
    ∧ setTime (strL "Jul") (strL "1") (strL "00:00") (⟨2023, 1, 1, 0, 0, 0⟩ : GoTime)
        = .ok (⟨2022, 7, 1, 0, 0, 0⟩ : GoTime)
    ∧ (⟨2022, 7, 1, 0, 0, 0⟩ : GoTime) ≠ (⟨2023, 7, 1, 0, 0, 0⟩ : GoTime) := by decide

/-- C7 amended: for a listing date field with a time of day, `setTime`
builds the date string with the year taken from `now` and, whenever the
parsed timestamp `t` is *at least* six months in the future (not strictly
before `now.AddDate(0,6,0)`), returns `t.AddDate(-1,0,0)`; otherwise it
returns `t` unchanged. -/
theorem claimC7_recent_correction (f0 f1 f2 : List Char) (now t : GoTime)
    (hc : goContains f2 (strL ":") = true)
    (hp : parseTimeLs (f1 ++ [' '] ++ f0 ++ [' '] ++ intDec now.year ++ [' '] ++ f2)
        = some t) :
    setTime f0 f1 f2 now =
      .ok (if absSec t < absSec (goAddDate now 0 6 0) then t
           else goAddDate t (-1) 0 0) := by
  unfold setTime
  rw [if_pos hc]
  simp only [hp]
  simp [goTimeBefore]

/-- C7 amended, witness: a `Jul 1 00:00` line under a March reference time
parses within six months and is returned unshifted. -/
theorem claimC7_recent_correction_witness :
    setTime (strL "Jul") (strL "1") (strL "00:00") (⟨2023, 3, 15, 12, 0, 0⟩ : GoTime)
      = .ok (⟨2023, 7, 1, 0, 0, 0⟩ : GoTime) := by
  rw [claimC7_recent_correction (strL "Jul") (strL "1") (strL "00:00")
    (⟨2023, 3, 15, 12, 0, 0⟩ : GoTime) (⟨2023, 7, 1, 0, 0, 0⟩ : GoTime)
    (by decide) (by decide)]
  decide

/-! ### Splitting and capture lemmas for the passive-reply parser -/

/-- Helper: a split is never the empty list of fields. -/
theorem splitChar_ne_nil (sep : Char) (l : List Char) : splitChar sep l ≠ [] := by
  induction l with
  | nil => simp [splitChar]
  | cons c cs ih =>
    simp only [splitChar]
    cases h : splitChar sep cs with
    | nil => exact absurd h ih
    | cons g gs =>
      by_cases hc : c = sep <;> simp [hc]

/-- Helper: a list free of the separator is one single field. -/
theorem splitChar_of_not_mem (sep : Char) (l : List Char) (h : sep ∉ l) :
    splitChar sep l = [l] := by
  induction l with
  | nil => rfl
  | cons c cs ih =>
    have hc : c ≠ sep := fun he => h (he ▸ List.mem_cons_self c cs)
    have hcs : sep ∉ cs := fun hm => h (List.mem_cons_of_mem c hm)
    simp [splitChar, ih hcs, hc]

/-- Helper: splitting at the first separator occurrence peels off the
separator-free prefix as one field. -/
theorem splitChar_append (sep : Char) (a b : List Char) (h : sep ∉ a) :
    splitChar sep (a ++ sep :: b) = a :: splitChar sep b := by
  induction a with
  | nil =>
    simp only [List.nil_append, splitChar]
    cases hb : splitChar sep b with
    | nil => exact absurd hb (splitChar_ne_nil sep b)
    | cons g gs => simp
  | cons c cs ih =>
    have hc : c ≠ sep := fun he => h (he ▸ List.mem_cons_self c cs)
    have hcs : sep ∉ cs := fun hm => h (List.mem_cons_of_mem c hm)
    simp only [List.cons_append, splitChar, List.append_eq]
    rw [ih hcs]
    simp [hc]

/-- Helper: a list without `)` has no last closing parenthesis. -/
theorem lastClose_of_not_mem (l : List Char) (h : ')' ∉ l) : lastClose l = none := by
  induction l with
  | nil => rfl
  | cons c cs ih =>
    have hc : c ≠ ')' := fun he => h (he ▸ List.mem_cons_self c cs)
    have hcs : ')' ∉ cs := fun hm => h (List.mem_cons_of_mem c hm)
    simp [lastClose, ih hcs, hc]

/-- Helper: with no `)` after it, a closing parenthesis is the last one, and
the capture is everything before it. -/
theorem lastClose_append (mid post : List Char) (h : ')' ∉ post) :
    lastClose (mid ++ ')' :: post) = some mid := by
  induction mid with
  | nil => simp [lastClose, lastClose_of_not_mem post h]
  | cons c cs ih => simp [lastClose, ih]

/-- Helper: the pattern capture starts at the first `(`. -/
theorem pasvTuple_append (pre rest : List Char) (h : '(' ∉ pre) :
    pasvTuple (pre ++ '(' :: rest) = lastClose rest := by
  induction pre with
  | nil => simp [pasvTuple]
  | cons c cs ih =>
    have hc : c ≠ '(' := fun he => h (he ▸ List.mem_cons_self c cs)
    have hcs : '(' ∉ cs := fun hm => h (List.mem_cons_of_mem c hm)
    simp [pasvTuple, hc, ih hcs]

/-- Helper: a digit character's value is below ten. -/
theorem dval_le_nine (c : Char) (h : c.isDigit = true) : dval c ≤ 9 := by
  have h2 : c.val ≤ 57 := by
    simp only [Char.isDigit, Bool.and_eq_true, decide_eq_true_eq] at h
    exact h.2
  have : c.toNat ≤ 57 := h2
  simp only [dval]
  omega

/-- Helper: the value of a digit string is below ten to its length. -/
theorem decVal_lt (l : List Char) (h : ∀ c ∈ l, c.isDigit = true) :
    decVal l < 10 ^ l.length := by
  suffices haux : ∀ (l : List Char) (acc : Nat), (∀ c ∈ l, c.isDigit = true) →
      l.foldl (fun a c => a * 10 + dval c) acc < (acc + 1) * 10 ^ l.length by
    have h0 := haux l 0 h
    simp only [decVal]
    omega

  intro l
  induction l with
  | nil => intro acc _; simp
  | cons c cs ih =>
    intro acc hc
    have h9 : dval c ≤ 9 := dval_le_nine c (hc c (List.mem_cons_self c cs))
    have hstep := ih (acc * 10 + dval c) (fun x hx => hc x (List.mem_cons_of_mem c hx))
    calc (c :: cs).foldl (fun a c => a * 10 + dval c) acc
        = cs.foldl (fun a c => a * 10 + dval c) (acc * 10 + dval c) := rfl
      _ < (acc * 10 + dval c + 1) * 10 ^ cs.length := hstep
      _ ≤ ((acc + 1) * 10) * 10 ^ cs.length :=
          Nat.mul_le_mul_right _ (by omega)
      _ = (acc + 1) * 10 ^ (c :: cs).length := by
          rw [List.length_cons, Nat.pow_succ]
          ring

/-- Helper: `strconv.Atoi` on a nonempty digit string of at most eighteen
digits is exactly the string's decimal value (no sign, no syntax error, no
64-bit overflow). -/
theorem goAtoi_digits (l : List Char) (hne : l ≠ [])
    (hd : ∀ c ∈ l, c.isDigit = true) (hlen : l.length ≤ 18) :
    goAtoi l = (decVal l : Int) := by
  match l, hne with
  | c :: cs, _ =>
    have hc := hd c (List.mem_cons_self c cs)
    have hplus : c ≠ '+' := fun he => by rw [he] at hc; exact absurd hc (by decide)
    have hminus : c ≠ '-' := fun he => by rw [he] at hc; exact absurd hc (by decide)
    have hbound : (decVal (c :: cs) : Int) ≤ 2 ^ 63 - 1 := by
      have h1 : decVal (c :: cs) < 10 ^ (c :: cs).length := decVal_lt _ hd
      have h2 : (10 : Nat) ^ (c :: cs).length ≤ 10 ^ 18 :=
        Nat.pow_le_pow_right (by norm_num) hlen
      have h3 : decVal (c :: cs) < 10 ^ 18 := lt_of_lt_of_le h1 h2
      have h4 : (decVal (c :: cs) : Int) < (10 : Int) ^ 18 := by exact_mod_cast h3
      have : ((10 : Int) ^ 18) ≤ 2 ^ 63 - 1 := by norm_num
      omega
    have hall : (c :: cs).all Char.isDigit = true := List.all_eq_true.mpr hd
    have hco : ¬ (c :: cs).isEmpty = true ∧ (c :: cs).all Char.isDigit = true :=
      ⟨by simp, hall⟩
    simp only [goAtoi, if_neg hplus, if_neg hminus, atoiMagPos, if_pos hco, if_pos hbound]

/-- C4: for every well-formed `227` passive reply whose parenthesized group
is a comma-separated six-tuple of decimal numerals (each at most eighteen
digits, so no 64-bit overflow), `Pasv` succeeds with port
`p1*256 + p2`, computed from the last two numerals only — the host octets
`h1..h4` do not occur in the result. -/
theorem claimC4_pasv_port (mid post h1 h2 h3 h4 p1 p2 : List Char)
    (hmid : '(' ∉ mid) (hpost : ')' ∉ post)
    (hf : ∀ f ∈ [h1, h2, h3, h4, p1, p2],
      f ≠ [] ∧ (∀ c ∈ f, c.isDigit = true) ∧ f.length ≤ 18) :
    Pasv (strL "227" ++ mid
        ++ '(' :: (h1 ++ ',' :: (h2 ++ ',' :: (h3 ++ ',' :: (h4 ++ ',' :: (p1 ++ ',' :: p2)))))
        ++ ')' :: post)
      = .ok ((decVal p1 : Int) * 256 + (decVal p2 : Int)) := by
  have hdig : ∀ f ∈ [h1, h2, h3, h4, p1, p2], ',' ∉ f ∧ '(' ∉ f := by
    intro f hmem
    have hd := (hf f hmem).2.1
    constructor <;> intro hm <;> have := hd _ hm <;> exact absurd this (by decide)
  have hpre : goHasPrefix (strL "227" ++ mid
      ++ '(' :: (h1 ++ ',' :: (h2 ++ ',' :: (h3 ++ ',' :: (h4 ++ ',' :: (p1 ++ ',' :: p2)))))
      ++ ')' :: post) (strL "227") = true := by
    simp only [goHasPrefix, List.append_assoc]
    exact List.isPrefixOf_iff_prefix.mpr (List.prefix_append _ _)
  have hcap : pasvTuple (strL "227" ++ mid
      ++ '(' :: (h1 ++ ',' :: (h2 ++ ',' :: (h3 ++ ',' :: (h4 ++ ',' :: (p1 ++ ',' :: p2)))))
      ++ ')' :: post)
      = some (h1 ++ ',' :: (h2 ++ ',' :: (h3 ++ ',' :: (h4 ++ ',' :: (p1 ++ ',' :: p2))))) := by
    have e1 : strL "227" ++ mid
        ++ '(' :: (h1 ++ ',' :: (h2 ++ ',' :: (h3 ++ ',' :: (h4 ++ ',' :: (p1 ++ ',' :: p2)))))
        ++ ')' :: post
        = (strL "227" ++ mid)
          ++ '(' :: ((h1 ++ ',' :: (h2 ++ ',' :: (h3 ++ ',' :: (h4 ++ ',' :: (p1 ++ ',' :: p2)))))
            ++ ')' :: post) := by
      simp [List.append_assoc]
    rw [e1, pasvTuple_append _ _ (by
      intro hm
      rcases List.mem_append.mp hm with hm2 | hm2
      · exact absurd hm2 (by decide)
      · exact hmid hm2)]
    exact lastClose_append _ post hpost
  have hsplit : splitChar ','
      (h1 ++ ',' :: (h2 ++ ',' :: (h3 ++ ',' :: (h4 ++ ',' :: (p1 ++ ',' :: p2)))))
      = [h1, h2, h3, h4, p1, p2] := by
    rw [splitChar_append ',' h1 _ (hdig h1 (by simp)).1,
        splitChar_append ',' h2 _ (hdig h2 (by simp)).1,
        splitChar_append ',' h3 _ (hdig h3 (by simp)).1,
        splitChar_append ',' h4 _ (hdig h4 (by simp)).1,
        splitChar_append ',' p1 _ (hdig p1 (by simp)).1,
        splitChar_of_not_mem ',' p2 (hdig p2 (by simp)).1]
  unfold Pasv
  rw [if_neg (fun hno => hno hpre), hcap]
  simp only [hsplit]
  rw [if_neg (by simp)]
  have e4 : List.getD [h1, h2, h3, h4, p1, p2]
      ([h1, h2, h3, h4, p1, p2].length - 2) [] = p1 := by simp
  have e5 : List.getD [h1, h2, h3, h4, p1, p2]
      ([h1, h2, h3, h4, p1, p2].length - 1) [] = p2 := by simp
  rw [e4, e5,
    goAtoi_digits p1 (hf p1 (by simp)).1 (hf p1 (by simp)).2.1 (hf p1 (by simp)).2.2,
    goAtoi_digits p2 (hf p2 (by simp)).1 (hf p2 (by simp)).2.1 (hf p2 (by simp)).2.2]

/-- C4 witness: the theorem applied to the reply
`227 Entering Passive Mode (192,168,1,2,4,1)`, whose derived port is
`4*256 + 1 = 1025`. -/
theorem claimC4_pasv_port_witness :
    Pasv (strL "227 Entering Passive Mode (192,168,1,2,4,1)\r\n") = .ok 1025 := by
  have h := claimC4_pasv_port (strL " Entering Passive Mode ") (strL "\r\n")
    (strL "192") (strL "168") (strL "1") (strL "2") (strL "4") (strL "1")
    (by decide) (by decide) (by decide)
  exact h.trans (by decide)

/-! ### Lemmas about `parseLine` on the walker's listing lines -/

/-- Helper: the name segment `" name\r\n"` of a fact line always lands in
the default branch (its key begins with a space) and strips the leading
space and trailing terminator, leaving exactly the name. -/
theorem parseLineSegs_name (p0 t0 f0 : List Char) (n : List Char) :
    parseLineSegs [' ' :: (n ++ strL "\r\n")] (p0, t0, f0) = some (p0, t0, n) := by
  obtain ⟨g, gs, hsplit⟩ :=
    List.exists_cons_of_ne_nil (splitChar_ne_nil '=' (n ++ strL "\r\n"))
  have hsp : splitChar '=' (' ' :: (n ++ strL "\r\n")) = (' ' :: g) :: gs := by
    simp [splitChar, hsplit]
  have hkey1 : (' ' :: g) ≠ strL "perm" := by
    intro he
    rw [show strL "perm" = 'p' :: 'e' :: 'r' :: 'm' :: [] from rfl] at he
    injection he with h1 _
    exact absurd h1 (by decide)
  have hkey2 : (' ' :: g) ≠ strL "type" := by
    intro he
    rw [show strL "type" = 't' :: 'y' :: 'p' :: 'e' :: [] from rfl] at he
    injection he with h1 _
    exact absurd h1 (by decide)
  have hlen : (' ' :: (n ++ strL "\r\n")).length = n.length + 3 := by
    simp [strL]
  simp only [parseLineSegs, hsp]
  rw [if_neg hkey1, if_neg hkey2, if_pos (by rw [hlen]; omega)]
  rw [show (' ' :: (n ++ strL "\r\n")).drop 1 = n ++ strL "\r\n" from rfl, hlen]
  simp only [Nat.add_sub_cancel]
  rw [List.take_left]

/-- Helper: the fact line of a file entry whose name has no `;` parses to
type `file` with exactly that name. -/
theorem parseLine_file (n : List Char) (h : ';' ∉ n) :
    parseLine (lineFor (FNode.file n)) = some ([], strL "file", n) := by
  have hterm : ';' ∉ ' ' :: (n ++ strL "\r\n") := by
    intro hm
    rcases List.mem_cons.mp hm with he | hm2
    · exact absurd he (by decide)
    · rcases List.mem_append.mp hm2 with h3 | h3
      · exact h h3
      · exact absurd h3 (by decide)
  have e1 : lineFor (FNode.file n)
      = strL "type=file" ++ ';' :: (' ' :: (n ++ strL "\r\n")) := rfl
  unfold parseLine
  rw [e1, splitChar_append ';' _ _ (by decide), splitChar_of_not_mem ';' _ hterm]
  rw [show parseLineSegs (strL "type=file" :: [' ' :: (n ++ strL "\r\n")]) ([], [], [])
      = parseLineSegs [' ' :: (n ++ strL "\r\n")] ([], strL "file", []) from rfl]
  exact parseLineSegs_name [] (strL "file") [] n

/-- Helper: the fact line of a directory entry whose name has no `;` parses
to type `dir` with exactly that name. -/
theorem parseLine_dir (n : List Char) (cs : FForest) (h : ';' ∉ n) :
    parseLine (lineFor (FNode.dir n cs)) = some ([], strL "dir", n) := by
  have hterm : ';' ∉ ' ' :: (n ++ strL "\r\n") := by
    intro hm
    rcases List.mem_cons.mp hm with he | hm2
    · exact absurd he (by decide)
    · rcases List.mem_append.mp hm2 with h3 | h3
      · exact h h3
      · exact absurd h3 (by decide)
  have e1 : lineFor (FNode.dir n cs)
      = strL "type=dir" ++ ';' :: (' ' :: (n ++ strL "\r\n")) := rfl
  unfold parseLine
  rw [e1, splitChar_append ';' _ _ (by decide), splitChar_of_not_mem ';' _ hterm]
  rw [show parseLineSegs (strL "type=dir" :: [' ' :: (n ++ strL "\r\n")]) ([], [], [])
      = parseLineSegs [' ' :: (n ++ strL "\r\n")] ([], strL "dir", []) from rfl]
  exact parseLineSegs_name [] (strL "dir") [] n

/-- Helper: a `false` result of `contains ';'` is non-membership. -/
theorem not_mem_of_contains_false (n : List Char) (h : n.contains ';' = false) :
    ';' ∉ n := by
  simp only [List.contains, List.elem_eq_mem, decide_eq_false_iff_not] at h
  exact h

mutual

/-- Helper (mutual with `walkForest_eq_spec`): walking into one directory
entry with a never-failing callback realizes exactly the specified visit
sequence of its children. -/
theorem walkNode_eq_spec (c : FNode) (path : List Char) (h : nameOkNode c = true) :
    walkNode (fun _ => none) c path = .ok (specVisitsNode c path) :=
  match c, h with
  | .file _, _ => rfl
  | .dir n cs, h => by
    have hcs : namesOk cs = true := by
      simp only [nameOkNode, Bool.and_eq_true] at h
      exact h.2
    show walkForest (fun _ => none) cs path = .ok (specVisits cs path)
    exact walkForest_eq_spec cs path hcs

/-- Helper (mutual with `walkNode_eq_spec`): with a never-failing callback,
the walk over a forest of entries with `;`-free names succeeds and its
visit sequence is exactly the claim's depth-first pre-order file sequence,
with `.` and `..` skipped. -/
theorem walkForest_eq_spec (fs : FForest) (path : List Char) (h : namesOk fs = true) :
    walkForest (fun _ => none) fs path = .ok (specVisits fs path) :=
  match fs, h with
  | .nil, _ => rfl
  | .cons (.file n) rest, h => by
    have hc : nameOkNode (FNode.file n) = true := by
      simp only [namesOk, Bool.and_eq_true] at h
      exact h.1
    have hrest : namesOk rest = true := by
      simp only [namesOk, Bool.and_eq_true] at h
      exact h.2
    have hn : ';' ∉ n :=
      not_mem_of_contains_false n (by
        simp only [nameOkNode, Bool.not_eq_true'] at hc
        exact hc)
    simp only [walkForest]
    rw [parseLine_file n hn]
    simp only []
    rw [if_neg (by decide : ¬ (strL "file" = strL "dir"))]
    simp only [if_true]
    rw [walkForest_eq_spec rest path hrest]
    rfl
  | .cons (.dir n cs) rest, h => by
    have hc : nameOkNode (FNode.dir n cs) = true := by
      simp only [namesOk, Bool.and_eq_true] at h
      exact h.1
    have hrest : namesOk rest = true := by
      simp only [namesOk, Bool.and_eq_true] at h
      exact h.2
    have hn : ';' ∉ n :=
      not_mem_of_contains_false n (by
        simp only [nameOkNode, Bool.and_eq_true, Bool.not_eq_true'] at hc
        exact hc.1)
    simp only [walkForest]
    rw [parseLine_dir n cs hn]
    simp only [if_true]
    by_cases hdot : n = strL "." ∨ n = strL ".."
    · rw [if_pos hdot, walkForest_eq_spec rest path hrest]
      simp [specVisits, hdot]
    · rw [if_neg hdot, walkNode_eq_spec (FNode.dir n cs) (path ++ n ++ strL "/") hc]
      simp only []
      rw [walkForest_eq_spec rest path hrest]
      simp [specVisits, specVisitsNode, hdot]

end

/-- C9: over every remote tree with `;`-free entry names, `Walk` with a
never-failing callback invokes the callback exactly once per file entry at
the concatenated full path, depth-first pre-order, recursing into
`path+name+"/"` for each directory and never visiting or recursing into the
`.` and `..` pseudo-entries (the visit sequence equals the specification's
`specVisits`); in particular, on the tree where `/a/` holds `.`/`..`, file
`c.txt` and folder `b`, and `/a/b/` holds `.`/`..` and file `d.txt`, the
walk of `/a/` visits exactly `/a/c.txt` then `/a/b/d.txt`. -/
theorem claimC9_walk :
    (∀ (fs : FForest) (path : List Char), namesOk fs = true →
      walkForest (fun _ => none) fs path = .ok (specVisits fs path))
    ∧ walkForest (fun _ => none) demoTree (strL "/a/")
        = .ok [strL "/a/c.txt", strL "/a/b/d.txt"] :=
  ⟨fun fs path h => walkForest_eq_spec fs path h, by decide⟩

/-- C9 witness: the general statement applied to the scenario tree. -/
theorem claimC9_walk_witness :
    walkForest (fun _ => none) demoTree (strL "/a/")
      = .ok (specVisits demoTree (strL "/a/")) :=
  claimC9_walk.1 demoTree (strL "/a/") (by decide)

end Goftp
